import Mathlib

/-!
Verification of the CCHub WhatsApp payment bot (canonical implementation in
src/unnamed/part_000): the PayCode cleaning/validation and rate-limiting
subsystem, the message-routing priority cascade of processMessage, the
in-memory session store, and the periodic user-activity cleanup.

Strings are modelled as `List Char` (JS strings are sequences of UTF-16 code
units; all inputs of interest here are ASCII). Timestamps (`Date.now()`) are
modelled as `Nat` milliseconds: every JS comparison involving a possibly
negative difference `now - k` is of the form `x < now - k` with `x ≥ 0`, which
agrees with truncated `Nat` subtraction.
-/

/-- JS character class `\d` (code points 48-57). -/
def isDigitCh (c : Char) : Bool :=
  decide (48 ≤ c.toNat ∧ c.toNat ≤ 57)

/-- JS character class `\w` = `[A-Za-z0-9_]`: the characters KEPT by the
`replace(/[^\w]/g, '')` step of `cleanPayCode`. -/
def isWordChar (c : Char) : Bool :=
  decide ((65 ≤ c.toNat ∧ c.toNat ≤ 90) ∨ (97 ≤ c.toNat ∧ c.toNat ≤ 122) ∨
    (48 ≤ c.toNat ∧ c.toNat ≤ 57) ∨ c.toNat = 95)

/-- JS `\s` restricted to ASCII (space, tab, LF, VT, FF, CR); the Unicode
whitespace code points of `\s` never occur in the inputs considered here. -/
def isJsSpace (c : Char) : Bool :=
  decide (c.toNat = 32 ∨ c.toNat = 9 ∨ c.toNat = 10 ∨ c.toNat = 11 ∨
    c.toNat = 12 ∨ c.toNat = 13)

/-- The separator class `[\s\-\.]` used between the CCH prefix and the digits
by the extraction patterns (45 = dash, 46 = dot). -/
def isExtractSep (c : Char) : Bool :=
  isJsSpace c || decide (c.toNat = 45) || decide (c.toNat = 46)

/-- ASCII fragment of JS `toUpperCase()` (sufficient for the ASCII inputs
considered here). -/
def upcaseCh (c : Char) : Char :=
  if 97 ≤ c.toNat ∧ c.toNat ≤ 122 then Char.ofNat (c.toNat - 32) else c

/-- ASCII fragment of JS `toLowerCase()`. -/
def downcaseCh (c : Char) : Char :=
  if 65 ≤ c.toNat ∧ c.toNat ≤ 90 then Char.ofNat (c.toNat + 32) else c

/-- JS `String.prototype.trim()` on the ASCII whitespace fragment. -/
def jsTrim (l : List Char) : List Char :=
  ((l.dropWhile isJsSpace).reverse.dropWhile isJsSpace).reverse

/-- Does `l` start with the sequence `pre`? (JS `startsWith`, case-sensitive.) -/
def startsWithSeq : List Char → List Char → Bool
  | [], _ => true
  | _ :: _, [] => false
  | p :: ps, c :: cs => decide (p = c) && startsWithSeq ps cs

/-- JS `String.prototype.includes` on character lists. -/
def containsSeq (needle : List Char) : List Char → Bool
  | [] => startsWithSeq needle []
  | c :: cs => startsWithSeq needle (c :: cs) || containsSeq needle cs

/-- `hay.toLowerCase().includes(needle)` for a lowercase `needle`. -/
def lowerContains (needle hay : List Char) : Bool :=
  containsSeq needle (hay.map downcaseCh)

/-- JS regex `/^\d+$/`: non-empty and all digits. -/
def isAllDigits (l : List Char) : Bool :=
  decide (l ≠ []) && l.all isDigitCh

/-- `parseInt` on an all-digit string. -/
def natFromDigits (l : List Char) : Nat :=
  l.foldl (fun n c => n * 10 + (c.toNat - 48)) 0

/-! ## PayCode cleaning and validation (part_000 lines 86-267) -/

/-- `cleanPayCode`: JS returns `null` for a falsy argument (only the empty
string here); otherwise trims, deletes every non-`\w` character and
uppercases. The final step (re-matching `/^(CCH)(\d+)$/i` and rebuilding the
string as `match[1].toUpperCase() + match[2]`) is the identity on the already
uppercased string and is therefore not repeated here. -/
def cleanPayCode (raw : List Char) : Option (List Char) :=
  if raw = [] then none
  else some (((jsTrim raw).filter isWordChar).map upcaseCh)

/-- JS regex `/^\d{6}$/`. -/
def isSixDigits (l : List Char) : Bool :=
  decide (l.length = 6) && l.all isDigitCh

/-- RULE 5 denylist: `/^CCH0{6}$/`, `/^CCH1{6}$/`, `/^CCH9{6}$/`,
`/^CCH123456$/`, `/^CCH654321$/`, `/^CCH(\d)\1{5}$/`. -/
def isSuspicious (l : List Char) : Bool :=
  decide (l = "CCH000000".data) || decide (l = "CCH111111".data) ||
  decide (l = "CCH999999".data) || decide (l = "CCH123456".data) ||
  decide (l = "CCH654321".data) ||
  (match l with
   | 'C' :: 'C' :: 'H' :: d :: rest => isDigitCh d && decide (rest = List.replicate 5 d)
   | _ => false)

/-- One user's entry of the `userActivity` map. -/
structure UserState where
  attempts : Nat
  lastAttempt : Nat
  lockoutUntil : Nat
  lastValidPayCode : Option (List Char)
deriving DecidableEq

/-- The lazily-initialized fresh record `{attempts: 0, lastAttempt: 0,
lockoutUntil: 0, lastValidPayCode: null}`. -/
def clearUserState : UserState :=
  { attempts := 0, lastAttempt := 0, lockoutUntil := 0, lastValidPayCode := none }

def RATE_LIMIT_maxAttempts : Nat := 3
def RATE_LIMIT_windowMs : Nat := 5 * 60 * 1000
def RATE_LIMIT_lockoutDurationMs : Nat := 15 * 60 * 1000
def SESSION_TTL_MS : Nat := 10 * 60 * 1000

/-- `userState.attempts++; userState.lastAttempt = now`. -/
def bumpAttempt (st : UserState) (now : Nat) : UserState :=
  { st with attempts := st.attempts + 1, lastAttempt := now }

/-- Window reset: `if (userState.lastAttempt < now - windowMs) attempts = 0`. -/
def windowReset (st : UserState) (now : Nat) : UserState :=
  if st.lastAttempt < now - RATE_LIMIT_windowMs then { st with attempts := 0 } else st

/-- `Math.ceil(ms / 60000)` for `ms ≥ 0`. -/
def ceilMinutes (ms : Nat) : Nat := (ms + 59999) / 60000

/-- The typed errors thrown by `validatePayCode`; the payload is (the static
part of) the thrown `Error` message. JS dispatches on the `RATE_LIMIT:` /
`FORMAT:` / `SECURITY:` message head, modelled here by the constructor. -/
inductive VError where
  | rateLimited (remainingMinutes : Nat)
  | format (msg : String)
  | security (msg : String)
deriving DecidableEq

/-- Outcome of a `validatePayCode` call: the returned canonical code, or the
thrown typed error. -/
inductive VResult where
  | ok (code : List Char)
  | err (e : VError)
deriving DecidableEq

/-- `validatePayCode(payCode, from)` (part_000 lines 157-267), as a pure
function of the caller's `userActivity` record and the current time. Returns
the result (canonical code or thrown error) together with the record as left
behind by the call. Dynamic tails of purely informational messages (attempt
counts, lengths) are omitted; the corrective message of the bare-six-digits
rejection is kept verbatim because it names the canonical code. -/
def validatePayCode (payCode : List Char) (st : UserState) (now : Nat) :
    VResult × UserState :=
  if st.lockoutUntil > now then
    (.err (.rateLimited (ceilMinutes (st.lockoutUntil - now))), st)
  else
    let st1 := windowReset st now
    match cleanPayCode payCode with
    | none => (.err (.format "FORMAT: Invalid PayCode format."), bumpAttempt st1 now)
    | some cleaned =>
      if cleaned = [] then
        (.err (.format "FORMAT: Invalid PayCode format."), bumpAttempt st1 now)
      else if !(startsWithSeq "CCH".data cleaned) then
        if isSixDigits cleaned then
          (.err (.format (String.mk
            ("FORMAT: PayCodes now start with \"CCH\". Please add \"CCH\" prefix: CCH".data
              ++ cleaned))), bumpAttempt st1 now)
        else
          (.err (.format "FORMAT: PayCode must start with \"CCH\"."), bumpAttempt st1 now)
      else if cleaned.take 3 ≠ "CCH".data then
        (.err (.format "FORMAT: \"CCH\" must be in uppercase."), bumpAttempt st1 now)
      else if cleaned.length ≠ 9 then
        (.err (.format "FORMAT: Invalid PayCode length. Must be exactly 9 characters (CCH + 6 digits)."),
          bumpAttempt st1 now)
      else if !(isSixDigits (cleaned.drop 3)) then
        (.err (.format "FORMAT: After \"CCH\", must be exactly 6 digits."), bumpAttempt st1 now)
      else
        let st2 := if isSuspicious cleaned then
          { st1 with attempts := st1.attempts + 2, lastAttempt := now } else st1
        if st2.lastValidPayCode = some cleaned then
          (.err (.security "SECURITY: This PayCode was already used recently. Each PayCode can only be used once."), st2)
        else if payCode.length > 100 then
          (.err (.security "SECURITY: Message too long. Please send only the PayCode."), bumpAttempt st2 now)
        else
          (.ok cleaned,
           { st2 with attempts := 0, lastValidPayCode := some cleaned, lastAttempt := now })

/-! ## PayCode extraction (part_000 lines 117-152)

The four regexes of `extractPayCodeFromMessage` are tried in order over the
trimmed message; each is modelled by a matcher at a fixed position plus a
leftmost scan (`firstSome`), which coincides with the JS engine's leftmost
match because the character classes of adjacent regex parts are disjoint, so
greedy matching never needs to backtrack. -/

/-- Match `CCH[\s\-\.]*\d{6}` (case-insensitive `CCH`) at the head of `l`,
returning the matched text (pattern 1, also the capture of patterns 2-3). -/
def tryStandardAt (l : List Char) : Option (List Char) :=
  match l with
  | c1 :: c2 :: c3 :: rest =>
    if downcaseCh c1 = 'c' ∧ downcaseCh c2 = 'c' ∧ downcaseCh c3 = 'h' then
      let seps := rest.takeWhile isExtractSep
      let ds := (rest.dropWhile isExtractSep).take 6
      if ds.length = 6 ∧ ds.all isDigitCh = true then some (c1 :: c2 :: c3 :: (seps ++ ds))
      else none
    else none
  | _ => none

/-- Case-insensitive literal match of `needle` (given lowercase) at the head
of `hay`; returns the remainder on success. -/
def matchCI : List Char → List Char → Option (List Char)
  | [], hay => some hay
  | _ :: _, [] => none
  | n :: ns, c :: cs => if downcaseCh c = n then matchCI ns cs else none

/-- Pattern 2: `paycode[:\s]+(CCH[\s\-\.]*\d{6})` at the head of `l`,
returning the capture group. -/
def tryLabeledAt (l : List Char) : Option (List Char) :=
  match matchCI "paycode".data l with
  | none => none
  | some rest =>
    if rest.takeWhile (fun c => decide (c = ':') || isJsSpace c) = [] then none
    else tryStandardAt (rest.dropWhile (fun c => decide (c = ':') || isJsSpace c))

/-- Pattern 3: `cchub[:\/]+pay[:\/]+(CCH[\s\-\.]*\d{6})` at the head of `l`,
returning the capture group. -/
def tryUrlAt (l : List Char) : Option (List Char) :=
  match matchCI "cchub".data l with
  | none => none
  | some r1 =>
    if r1.takeWhile (fun c => decide (c = ':') || decide (c = '/')) = [] then none
    else
      match matchCI "pay".data (r1.dropWhile (fun c => decide (c = ':') || decide (c = '/'))) with
      | none => none
      | some r2 =>
        if r2.takeWhile (fun c => decide (c = ':') || decide (c = '/')) = [] then none
        else tryStandardAt (r2.dropWhile (fun c => decide (c = ':') || decide (c = '/')))

/-- Pattern 4: `(\d{6})` at the head of `l`. -/
def tryDigits6At (l : List Char) : Option (List Char) :=
  if (l.take 6).length = 6 ∧ (l.take 6).all isDigitCh = true then some (l.take 6) else none

/-- Leftmost match: try `f` at every position, left to right. -/
def firstSome (f : List Char → Option (List Char)) : List Char → Option (List Char)
  | [] => f []
  | c :: cs =>
    match f (c :: cs) with
    | some r => some r
    | none => firstSome f cs

/-- `extractPayCodeFromMessage(message)` (part_000 lines 117-152). -/
def extractPayCodeFromMessage (message : List Char) : Option (List Char) :=
  let m := jsTrim message
  match firstSome tryStandardAt m with
  | some r => some r
  | none =>
    match firstSome tryLabeledAt m with
    | some r => some r
    | none =>
      match firstSome tryUrlAt m with
      | some r => some r
      | none => firstSome tryDigits6At m

/-! ## handlePayCodeMessage (part_000 lines 271-412), state effects

Modelled up to the external WordPress call: `validated` marks a submission
that passed extraction and validation and proceeds to the API request (whose
outcome is an external collaborator). On a validation error the `catch` block
(lines 375-397) increments `attempts` once more, stamps `lastAttempt`, and
converts the response into a lockout notice when `attempts` reaches
`maxAttempts`, setting `lockoutUntil`. -/

inductive HResult where
  | notDetected
  | validated (code : List Char)
  | rejected (e : VError)
  | lockedOut
deriving DecidableEq

def handlePayCodeMessage (message : List Char) (st : UserState) (now : Nat) :
    HResult × UserState :=
  match extractPayCodeFromMessage message with
  | none => (.notDetected, st)
  | some extracted =>
    match validatePayCode extracted st now with
    | (.ok code, st1) => (.validated code, st1)
    | (.err e, st1) =>
      let st2 := { st1 with attempts := st1.attempts + 1, lastAttempt := now }
      if st2.attempts ≥ RATE_LIMIT_maxAttempts then
        (.lockedOut, { st2 with lockoutUntil := now + RATE_LIMIT_lockoutDurationMs })
      else (.rejected e, st2)

/-! ## processMessage (part_000 lines 598-743): the routing cascade

The session argument stands for the result of `getActiveSession(from)` and the
`ua` argument for `userActivity[from]`. Routing decisions depend only on the
session's `flow`, `service` and `waitingForPaycode` fields; the other payload
fields of a live session never influence routing and are omitted. The returned
state reflects only the mutation performed by `processMessage` itself (the
STEP 1 reset); state effects of the dispatched handlers are modelled by the
handler functions (e.g. `handlePayCodeMessage`). -/

structure ChatSession where
  flow : String
  service : String
  waitingForPaycode : Bool
deriving DecidableEq

/-- Where `processMessage` routes one inbound message (one constructor per
dispatch target / canned reply of the cascade). -/
inductive Route where
  | welcome
  | lockoutNotice (remainingMinutes : Nat)
  | payCodeHandling
  | airtimeStart
  | zesaStart
  | deadSixDigitCheck (digits : List Char)
  | mainMenuSelection (choice : List Char)
  | billCategorySelection (choice : List Char)
  | billCodeSearchOption (choice : List Char)
  | billPaymentConfirmation (choice : List Char)
  | zesaWalletSelection (choice : List Char)
  | airtimeWalletSelection (choice : List Char)
  | billMinAmountError (amount : Nat)
  | billAmountEntry (amount : List Char)
  | zesaAmountEntry (amount : List Char)
  | airtimeCustomAmount (amount : List Char)
  | airtimeAmountEntry (choice : List Char)
  | meterEntry (meter : List Char)
  | airtimeRecipientEntry (phone : List Char)
  | waitingForPayCodePrompt
  | mainMenuTypeHiPrompt
  | flowError (flow : String)
  | billPayInfo
  | payCodeFormatErrorNoSession (digits : List Char)
  | meterEntryNoSession (meter : List Char)
deriving DecidableEq

/-- `detectKeywords(message)` (part_000 lines 48-58). -/
def detectKeywords (message : List Char) : Option String :=
  let c := jsTrim (message.map downcaseCh)
  if containsSeq "airtime".data c then some "airtime"
  else if containsSeq "zesa".data c then some "zesa"
  else none

/-- STEP 3 check: `/CCH/i.test || /paycode/i.test || /cchub/i.test`. -/
def hasPossiblePayCode (cm : List Char) : Bool :=
  lowerContains "cch".data cm || lowerContains "paycode".data cm ||
    lowerContains "cchub".data cm

/-- STEP 1 check: `cleanMessage.toLowerCase().includes('hi')` (applied to the
already trimmed message). -/
def containsHiLower (cm : List Char) : Bool :=
  lowerContains "hi".data cm

/-- STEP 2 guard `userState && userState.lockoutUntil > Date.now()`. -/
def uaLocked (ua : Option UserState) (now : Nat) : Bool :=
  match ua with
  | some st => decide (st.lockoutUntil > now)
  | none => false

/-- STEP 8: no active session (part_000 lines 729-742). -/
def routeNoSession (cm : List Char) : Route :=
  if lowerContains "bill".data cm || lowerContains "pay".data cm then .billPayInfo
  else if isSixDigits cm then .payCodeFormatErrorNoSession cm
  else if isAllDigits cm ∧ cm.length ≥ 10 then .meterEntryNoSession cm
  else .welcome

/-- STEPS 5-7: active session (part_000 lines 645-726). The first branch
models `cleanMessage.length === 6 && !session.waitingForPaycode &&
!session.service === 'bill_payment'`: by JS operator precedence the last
conjunct compares the boolean `!session.service` against a string and is
always `false`, so the branch is unreachable; the trailing `∧ False` keeps
that structure visible. -/
def routeWithSession (cm : List Char) (s : ChatSession) : Route :=
  if isAllDigits cm ∧ cm.length = 6 ∧ s.waitingForPaycode = false ∧ False then
    .deadSixDigitCheck cm
  else if isAllDigits cm ∧ s.flow = "main_menu" then .mainMenuSelection cm
  else if isAllDigits cm ∧ s.flow = "bill_category_selection" then .billCategorySelection cm
  else if isAllDigits cm ∧ s.flow = "bill_code_search_option" then .billCodeSearchOption cm
  else if isAllDigits cm ∧ s.flow = "bill_payment_confirmation" then .billPaymentConfirmation cm
  else if isAllDigits cm ∧ s.flow = "zesa_wallet_selection" then .zesaWalletSelection cm
  else if isAllDigits cm ∧ s.flow = "airtime_wallet_selection" then .airtimeWalletSelection cm
  else if s.flow = "bill_amount_entry" ∧ isAllDigits cm then
    (if natFromDigits cm < 50000 then .billMinAmountError (natFromDigits cm)
     else .billAmountEntry cm)
  else if s.flow = "zesa_amount_entry" ∧ isAllDigits cm then .zesaAmountEntry cm
  else if s.flow = "airtime_custom_amount" ∧ isAllDigits cm then .airtimeCustomAmount cm
  else if s.flow = "airtime_amount_entry" ∧ isAllDigits cm ∧ cm.length = 1 then
    .airtimeAmountEntry cm
  else if s.flow = "zesa_meter_entry" ∧ isAllDigits cm ∧ cm.length ≥ 10 then .meterEntry cm
  else if s.flow = "airtime_recipient_entry" then .airtimeRecipientEntry cm
  else if s.flow = "waiting_for_paycode" then
    (if lowerContains "cch".data cm || lowerContains "paycode".data cm then .payCodeHandling
     else .waitingForPayCodePrompt)
  else if s.flow = "main_menu" then .mainMenuTypeHiPrompt
  else .flowError s.flow

/-- STEPS 3-8 (everything after the reset-keyword and lockout short-circuits).
`detectKeywords` runs on the untrimmed `messageText` as in the source. -/
def routeMessage (messageText cm : List Char) (session : Option ChatSession) : Route :=
  if hasPossiblePayCode cm then .payCodeHandling
  else
    match detectKeywords messageText with
    | some k => if k = "airtime" then .airtimeStart else .zesaStart
    | none =>
      match session with
      | some s => routeWithSession cm s
      | none => routeNoSession cm

/-- `processMessage(from, messageText)` (part_000 lines 598-743): STEP 1
("hi" always works and zeroes `attempts` and `lockoutUntil`), STEP 2 (lockout
notice short-circuit), then the routing cascade. -/
def processMessage (messageText : List Char) (session : Option ChatSession)
    (ua : Option UserState) (now : Nat) : Route × Option UserState :=
  let cm := jsTrim messageText
  if containsHiLower cm then
    (.welcome, ua.map fun st => { st with attempts := 0, lockoutUntil := 0 })
  else
    match ua with
    | some st =>
      if st.lockoutUntil > now then (.lockoutNotice (ceilMinutes (st.lockoutUntil - now)), ua)
      else (routeMessage messageText cm session, ua)
    | none => (routeMessage messageText cm session, ua)

/-! ## Session store (part_000 lines 27-45, 494-530)

The `sessions` object is modelled as an association list keyed by the id
string `session_${whatsappNumber}_${Date.now()}`, i.e. by the pair
(number, creation time); inserting under an existing key overwrites, as JS
property assignment does. Only the fields read by the store logic
(`whatsappNumber`, `service`, timestamps) are kept; `updateSession` calls that
pass no `service` field are modelled with the empty string (in JS
`undefined === 'bill_payment'` is `false`, just like `"" = "bill_payment"`
is). -/

structure StoredSession where
  whatsappNumber : String
  service : String
  createdAt : Nat
  expiresAt : Nat
deriving DecidableEq

def SessionStore := List ((String × Nat) × StoredSession)

/-- `updateSession(whatsappNumber, data)` (part_000 lines 27-45): delete the
user's previous sessions — except that a `bill_payment` upsert spares
sessions of other services — then insert the fresh record under the new id. -/
def updateSession (store : SessionStore) (num service : String) (now : Nat) : SessionStore :=
  let kept := store.filter fun kv =>
    !(decide (kv.2.whatsappNumber = num)) ||
      (decide (service = "bill_payment") && !(decide (kv.2.service = "bill_payment")))
  ((num, now),
    { whatsappNumber := num, service := service, createdAt := now,
      expiresAt := now + SESSION_TTL_MS }) ::
    kept.filter fun kv => !(decide (kv.1 = (num, now)))

/-- `deleteSession(whatsappNumber)` (part_000 lines 513-519). -/
def deleteSession (store : SessionStore) (num : String) : SessionStore :=
  store.filter fun kv => !(decide (kv.2.whatsappNumber = num))

/-- `cleanupOldSessions()` (part_000 lines 522-530): drop sessions with
`expiresAt < now` (also performed lazily by `getActiveSession`). -/
def cleanupOldSessions (store : SessionStore) (now : Nat) : SessionStore :=
  store.filter fun kv => !(decide (kv.2.expiresAt < now))

/-- The store operations a run of the bot performs. -/
inductive SessionOp where
  | update (num service : String) (now : Nat)
  | remove (num : String)
  | sweep (now : Nat)

def applyOp (store : SessionStore) : SessionOp → SessionStore
  | .update num service now => updateSession store num service now
  | .remove num => deleteSession store num
  | .sweep now => cleanupOldSessions store now

def applyOps (ops : List SessionOp) : SessionStore :=
  ops.foldl applyOp []

/-- Number of entries satisfying `p`. -/
def countB (p : α → Bool) (l : List α) : Nat := (l.filter p).length

/-- Does this stored session belong to user `num` and to service class `b`
(`b = true`: the `bill_payment` service; `b = false`: any other)? -/
def classPred (num : String) (b : Bool) (kv : (String × Nat) × StoredSession) : Bool :=
  decide (kv.2.whatsappNumber = num) && (decide (kv.2.service = "bill_payment") == b)

/-- Number of stored sessions of user `num` in service class `b`. -/
def classCount (store : SessionStore) (num : String) (b : Bool) : Nat :=
  countB (classPred num b) store

/-- Number of non-expired sessions of user `num` at time `t` (the
`expiresAt > now` test of `getActiveSession`). -/
def activeCount (store : SessionStore) (num : String) (t : Nat) : Nat :=
  countB (fun kv => decide (kv.2.whatsappNumber = num) && decide (t < kv.2.expiresAt)) store

/-! ## Rate-limit record cleanup (part_000 lines 532-548) -/

/-- `cleanupUserActivity()` on one record: delete it when it is more than an
hour idle with no live lockout; otherwise zero an expired lockout's
`lockoutUntil` and `attempts` (the record's other fields survive). In the
source the second `if` also runs on a just-deleted record, mutating a
dangling object with no effect on the map. -/
def cleanupRecord (st : UserState) (now : Nat) : Option UserState :=
  if st.lastAttempt < now - (60 * 60 * 1000) ∧ st.lockoutUntil < now then none
  else if 0 < st.lockoutUntil ∧ st.lockoutUntil < now then
    some { st with lockoutUntil := 0, attempts := 0 }
  else some st

/-- `cleanupUserActivity()` over the whole `userActivity` map. -/
def cleanupUserActivity (ua : List (String × UserState)) (now : Nat) :
    List (String × UserState) :=
  ua.filterMap fun e => (cleanupRecord e.2 now).map fun st => (e.1, st)

/-! ## Spec-side domain of claim C6

A raw input that is the canonical code written with embedded
whitespace/dashes/dots and arbitrary letter case, and nothing else: deleting
its separator characters leaves exactly `C`,`C`,`H` (each in either case)
followed by the digits `ds`. -/

def SeparatedCCHCode (raw ds : List Char) : Prop :=
  ds.all isDigitCh = true ∧
  ∃ u1 u2 u3, (u1 = 'c' ∨ u1 = 'C') ∧ (u2 = 'c' ∨ u2 = 'C') ∧ (u3 = 'h' ∨ u3 = 'H') ∧
    raw.filter (fun c => !(isExtractSep c)) = u1 :: u2 :: u3 :: ds

/-- Concrete C6 counterexample input: `CCH`, 95 dashes, 6 digits — 104
characters, within the claimed domain but over the 100-character cap of
RULE 7. -/
def longSeparatedRaw : List Char :=
  'C' :: 'C' :: 'H' :: (List.replicate 95 '-' ++ "785012".data)

/-! ## General lemmas about the character classes and list helpers -/

theorem isDigitCh_range {c : Char} (h : isDigitCh c = true) : 48 ≤ c.toNat ∧ c.toNat ≤ 57 := by
  simpa [isDigitCh] using h

theorem upcaseCh_digit {c : Char} (h : isDigitCh c = true) : upcaseCh c = c := by
  have hr := isDigitCh_range h
  unfold upcaseCh
  rw [if_neg]
  omega

theorem isWordChar_of_digit {c : Char} (h : isDigitCh c = true) : isWordChar c = true := by
  have hr := isDigitCh_range h
  simp [isWordChar]
  omega

theorem isJsSpace_digit {c : Char} (h : isDigitCh c = true) : isJsSpace c = false := by
  have hr := isDigitCh_range h
  simp [isJsSpace]
  omega

theorem isExtractSep_digit {c : Char} (h : isDigitCh c = true) : isExtractSep c = false := by
  have hr := isDigitCh_range h
  simp [isExtractSep, isJsSpace]
  omega

theorem digit_ne_C {c : Char} (h : isDigitCh c = true) : c ≠ 'C' := by
  intro he
  rw [he] at h
  exact absurd h (by decide)

theorem sep_not_word {c : Char} (h : isExtractSep c = true) : isWordChar c = false := by
  simp [isExtractSep, isJsSpace] at h
  simp [isWordChar]
  omega

theorem jsSpace_not_word {c : Char} (h : isJsSpace c = true) : isWordChar c = false := by
  simp [isJsSpace] at h
  simp [isWordChar]
  omega

theorem filter_dropWhile_eq {α : Type} {p q : α → Bool}
    (hpq : ∀ a, q a = true → p a = false) :
    ∀ l : List α, (l.dropWhile q).filter p = l.filter p := by
  intro l
  induction l with
  | nil => rfl
  | cons a t ih =>
    by_cases hq : q a = true
    · rw [List.dropWhile_cons, if_pos hq, ih, List.filter_cons, if_neg]
      simp [hpq a hq]
    · rw [List.dropWhile_cons, if_neg hq]

theorem filter_reverse_comm {α : Type} (p : α → Bool) :
    ∀ l : List α, l.reverse.filter p = (l.filter p).reverse := by
  intro l
  induction l with
  | nil => rfl
  | cons a t ih =>
    rw [List.reverse_cons, List.filter_append, ih, List.filter_cons]
    by_cases hp : p a = true
    · simp [hp]
    · simp [hp]

theorem filter_isWordChar_jsTrim (l : List Char) :
    (jsTrim l).filter isWordChar = l.filter isWordChar := by
  unfold jsTrim
  rw [filter_reverse_comm, filter_dropWhile_eq (fun a => jsSpace_not_word),
    filter_reverse_comm, List.reverse_reverse,
    filter_dropWhile_eq (fun a => jsSpace_not_word)]

theorem dropWhile_eq_self_of {α : Type} {q : α → Bool} :
    ∀ {l : List α}, (∀ a ∈ l, q a = false) → l.dropWhile q = l
  | [], _ => rfl
  | a :: t, h => by
    rw [List.dropWhile_cons, if_neg]
    simp [h a (by simp)]

theorem jsTrim_eq_self {l : List Char} (h : ∀ c ∈ l, isJsSpace c = false) : jsTrim l = l := by
  unfold jsTrim
  rw [dropWhile_eq_self_of h, dropWhile_eq_self_of (fun a ha => h a (List.mem_reverse.mp ha)),
    List.reverse_reverse]

theorem filter_eq_self_of {α : Type} {p : α → Bool} :
    ∀ {l : List α}, (∀ a ∈ l, p a = true) → l.filter p = l
  | [], _ => rfl
  | a :: t, h => by
    rw [List.filter_cons, if_pos (h a (by simp)), filter_eq_self_of fun b hb => h b (by simp [hb])]

theorem map_eq_self_of {α : Type} {f : α → α} :
    ∀ {l : List α}, (∀ a ∈ l, f a = a) → l.map f = l
  | [], _ => rfl
  | a :: t, h => by
    rw [List.map_cons, h a (by simp), map_eq_self_of fun b hb => h b (by simp [hb])]

theorem cchData : "CCH".data = ['C', 'C', 'H'] := rfl

/-! ## Lemmas about cleanPayCode and validatePayCode -/

theorem clean_digits {ds : List Char} (hne : ds ≠ []) (hd : ds.all isDigitCh = true) :
    cleanPayCode ds = some ds := by
  have hmem : ∀ c ∈ ds, isDigitCh c = true := by simpa [List.all_eq_true] using hd
  unfold cleanPayCode
  rw [if_neg hne, jsTrim_eq_self (fun c hc => isJsSpace_digit (hmem c hc)),
    filter_eq_self_of (fun c hc => isWordChar_of_digit (hmem c hc)),
    map_eq_self_of (fun c hc => upcaseCh_digit (hmem c hc))]

theorem clean_canonical {ds : List Char} (hd : ds.all isDigitCh = true) :
    cleanPayCode ('C' :: 'C' :: 'H' :: ds) = some ('C' :: 'C' :: 'H' :: ds) := by
  have hmem : ∀ c ∈ ds, isDigitCh c = true := by simpa [List.all_eq_true] using hd
  have hsp : ∀ c ∈ ('C' :: 'C' :: 'H' :: ds), isJsSpace c = false := by
    intro c hc
    rcases List.mem_cons.mp hc with rfl | hc
    · decide
    rcases List.mem_cons.mp hc with rfl | hc
    · decide
    rcases List.mem_cons.mp hc with rfl | hc
    · decide
    · exact isJsSpace_digit (hmem c hc)
  have hw : ∀ c ∈ ('C' :: 'C' :: 'H' :: ds), isWordChar c = true := by
    intro c hc
    rcases List.mem_cons.mp hc with rfl | hc
    · decide
    rcases List.mem_cons.mp hc with rfl | hc
    · decide
    rcases List.mem_cons.mp hc with rfl | hc
    · decide
    · exact isWordChar_of_digit (hmem c hc)
  have hu : ∀ c ∈ ('C' :: 'C' :: 'H' :: ds), upcaseCh c = c := by
    intro c hc
    rcases List.mem_cons.mp hc with rfl | hc
    · decide
    rcases List.mem_cons.mp hc with rfl | hc
    · decide
    rcases List.mem_cons.mp hc with rfl | hc
    · decide
    · exact upcaseCh_digit (hmem c hc)
  unfold cleanPayCode
  rw [if_neg (by simp), jsTrim_eq_self hsp, filter_eq_self_of hw, map_eq_self_of hu]

theorem windowReset_lockoutUntil (st : UserState) (now : Nat) :
    (windowReset st now).lockoutUntil = st.lockoutUntil := by
  unfold windowReset
  split <;> rfl

theorem windowReset_lastValid (st : UserState) (now : Nat) :
    (windowReset st now).lastValidPayCode = st.lastValidPayCode := by
  unfold windowReset
  split <;> rfl

theorem startsWithSeq_CCH {ds : List Char} :
    startsWithSeq ['C', 'C', 'H'] ('C' :: 'C' :: 'H' :: ds) = true := by
  simp [startsWithSeq]

theorem startsWithSeq_CCH_digits {ds : List Char} (hne : ds ≠ [])
    (hd : ds.all isDigitCh = true) : startsWithSeq "CCH".data ds = false := by
  cases ds with
  | nil => exact absurd rfl hne
  | cons d t =>
    have hdd : isDigitCh d = true := by
      simp [List.all_eq_true] at hd
      exact hd.1
    rw [cchData]
    simp [startsWithSeq]
    intro he
    exact absurd he.symm (digit_ne_C hdd)

theorem upd2_lastValid (st : UserState) (k n : Nat) :
    ({ st with attempts := k, lastAttempt := n } : UserState).lastValidPayCode =
      st.lastValidPayCode := rfl

theorem upd2_lockoutUntil (st : UserState) (k n : Nat) :
    ({ st with attempts := k, lastAttempt := n } : UserState).lockoutUntil =
      st.lockoutUntil := rfl

theorem validate_of_clean {raw ds : List Char} {st : UserState} {now : Nat}
    (hclean : cleanPayCode raw = some ('C' :: 'C' :: 'H' :: ds))
    (hlen : ds.length = 6) (hd : ds.all isDigitCh = true)
    (hreplay : st.lastValidPayCode ≠ some ('C' :: 'C' :: 'H' :: ds))
    (hraw : raw.length ≤ 100)
    (hlock : st.lockoutUntil ≤ now) :
    validatePayCode raw st now =
      (.ok ('C' :: 'C' :: 'H' :: ds),
       { attempts := 0, lastAttempt := now, lockoutUntil := st.lockoutUntil,
         lastValidPayCode := some ('C' :: 'C' :: 'H' :: ds) }) := by
  unfold validatePayCode
  rw [if_neg (by omega), hclean]
  dsimp only
  rw [if_neg (show ¬('C' :: 'C' :: 'H' :: ds = []) by simp)]
  simp only [cchData, startsWithSeq_CCH, Bool.not_true, Bool.false_eq_true, if_false]
  rw [if_neg (show ¬(List.take 3 ('C' :: 'C' :: 'H' :: ds) ≠ ['C', 'C', 'H']) by simp)]
  rw [if_neg (show ¬(('C' :: 'C' :: 'H' :: ds).length ≠ 9) by simp [hlen])]
  rw [if_neg (show ¬((!isSixDigits (List.drop 3 ('C' :: 'C' :: 'H' :: ds))) = true) by
    simp [isSixDigits, hlen, hd])]
  by_cases hs : isSuspicious ('C' :: 'C' :: 'H' :: ds) = true
  · rw [if_pos hs]
    have hrep2 : ¬(({ windowReset st now with
        attempts := (windowReset st now).attempts + 2,
        lastAttempt := now } : UserState).lastValidPayCode =
          some ('C' :: 'C' :: 'H' :: ds)) := by
      rw [upd2_lastValid, windowReset_lastValid]
      exact hreplay
    rw [if_neg hrep2, if_neg (by omega)]
    cases st
    unfold windowReset
    split <;> rfl
  · rw [if_neg hs]
    have hrep2 : ¬((windowReset st now).lastValidPayCode =
        some ('C' :: 'C' :: 'H' :: ds)) := by
      rw [windowReset_lastValid]
      exact hreplay
    rw [if_neg hrep2, if_neg (by omega)]
    cases st
    unfold windowReset
    split <;> rfl

theorem validate_bare_digits {ds : List Char} {st : UserState} {now : Nat}
    (hlen : ds.length = 6) (hd : ds.all isDigitCh = true)
    (hlock : st.lockoutUntil ≤ now) :
    validatePayCode ds st now =
      (.err (.format (String.mk
        ("FORMAT: PayCodes now start with \"CCH\". Please add \"CCH\" prefix: CCH".data ++ ds))),
       bumpAttempt (windowReset st now) now) := by
  have hne : ds ≠ [] := by
    intro h
    rw [h] at hlen
    simp at hlen
  have hsw : startsWithSeq "CCH".data ds = false := startsWithSeq_CCH_digits hne hd
  unfold validatePayCode
  rw [if_neg (by omega), clean_digits hne hd]
  dsimp only
  rw [if_neg hne]
  rw [if_pos (show (!startsWithSeq "CCH".data ds) = true by rw [hsw]; rfl)]
  rw [if_pos (show isSixDigits ds = true by simp [isSixDigits, hlen, hd])]

theorem validate_replay {ds : List Char} {st : UserState} {now : Nat}
    (hlen : ds.length = 6) (hd : ds.all isDigitCh = true)
    (hlock : st.lockoutUntil ≤ now)
    (hre : st.lastValidPayCode = some ('C' :: 'C' :: 'H' :: ds)) :
    validatePayCode ('C' :: 'C' :: 'H' :: ds) st now =
      (.err (.security "SECURITY: This PayCode was already used recently. Each PayCode can only be used once."),
       if isSuspicious ('C' :: 'C' :: 'H' :: ds) then
         ({ windowReset st now with
            attempts := (windowReset st now).attempts + 2,
            lastAttempt := now } : UserState)
       else windowReset st now) := by
  unfold validatePayCode
  rw [if_neg (by omega), clean_canonical hd]
  dsimp only
  rw [if_neg (show ¬('C' :: 'C' :: 'H' :: ds = []) by simp)]
  simp only [cchData, startsWithSeq_CCH, Bool.not_true, Bool.false_eq_true, if_false]
  rw [if_neg (show ¬(List.take 3 ('C' :: 'C' :: 'H' :: ds) ≠ ['C', 'C', 'H']) by simp)]
  rw [if_neg (show ¬(('C' :: 'C' :: 'H' :: ds).length ≠ 9) by simp [hlen])]
  rw [if_neg (show ¬((!isSixDigits (List.drop 3 ('C' :: 'C' :: 'H' :: ds))) = true) by
    simp [isSixDigits, hlen, hd])]
  by_cases hs : isSuspicious ('C' :: 'C' :: 'H' :: ds) = true
  · rw [if_pos hs]
    rw [if_pos (show ({ windowReset st now with
        attempts := (windowReset st now).attempts + 2,
        lastAttempt := now } : UserState).lastValidPayCode =
          some ('C' :: 'C' :: 'H' :: ds) by rw [upd2_lastValid, windowReset_lastValid]; exact hre)]
  · rw [if_neg hs]
    rw [if_pos (show (windowReset st now).lastValidPayCode =
        some ('C' :: 'C' :: 'H' :: ds) by rw [windowReset_lastValid]; exact hre)]

theorem isSuspicious_replicate {d : Char} (hd : isDigitCh d = true) :
    isSuspicious ('C' :: 'C' :: 'H' :: List.replicate 6 d) = true := by
  have h6 : List.replicate 6 d = d :: List.replicate 5 d := rfl
  rw [h6]
  unfold isSuspicious
  simp [hd]

theorem routeNoSession_ne_lockoutNotice (cm : List Char) (r : Nat) :
    routeNoSession cm ≠ Route.lockoutNotice r := by
  intro h
  unfold routeNoSession at h
  repeat' split at h
  all_goals simp_all

theorem routeWithSession_ne_lockoutNotice (cm : List Char) (s : ChatSession) (r : Nat) :
    routeWithSession cm s ≠ Route.lockoutNotice r := by
  intro h
  unfold routeWithSession at h
  by_cases h1 : isAllDigits cm = true ∧ cm.length = 6 ∧ s.waitingForPaycode = false ∧ False
  · exact h1.2.2.2
  rw [if_neg h1] at h
  by_cases h2 : isAllDigits cm = true ∧ s.flow = "main_menu"
  · rw [if_pos h2] at h
    exact Route.noConfusion h
  rw [if_neg h2] at h
  by_cases h3 : isAllDigits cm = true ∧ s.flow = "bill_category_selection"
  · rw [if_pos h3] at h
    exact Route.noConfusion h
  rw [if_neg h3] at h
  by_cases h4 : isAllDigits cm = true ∧ s.flow = "bill_code_search_option"
  · rw [if_pos h4] at h
    exact Route.noConfusion h
  rw [if_neg h4] at h
  by_cases h5 : isAllDigits cm = true ∧ s.flow = "bill_payment_confirmation"
  · rw [if_pos h5] at h
    exact Route.noConfusion h
  rw [if_neg h5] at h
  by_cases h6 : isAllDigits cm = true ∧ s.flow = "zesa_wallet_selection"
  · rw [if_pos h6] at h
    exact Route.noConfusion h
  rw [if_neg h6] at h
  by_cases h7 : isAllDigits cm = true ∧ s.flow = "airtime_wallet_selection"
  · rw [if_pos h7] at h
    exact Route.noConfusion h
  rw [if_neg h7] at h
  by_cases h8 : s.flow = "bill_amount_entry" ∧ isAllDigits cm = true
  · rw [if_pos h8] at h
    split at h <;> exact Route.noConfusion h
  rw [if_neg h8] at h
  by_cases h9 : s.flow = "zesa_amount_entry" ∧ isAllDigits cm = true
  · rw [if_pos h9] at h
    exact Route.noConfusion h
  rw [if_neg h9] at h
  by_cases h10 : s.flow = "airtime_custom_amount" ∧ isAllDigits cm = true
  · rw [if_pos h10] at h
    exact Route.noConfusion h
  rw [if_neg h10] at h
  by_cases h11 : s.flow = "airtime_amount_entry" ∧ isAllDigits cm = true ∧ cm.length = 1
  · rw [if_pos h11] at h
    exact Route.noConfusion h
  rw [if_neg h11] at h
  by_cases h12 : s.flow = "zesa_meter_entry" ∧ isAllDigits cm = true ∧ cm.length ≥ 10
  · rw [if_pos h12] at h
    exact Route.noConfusion h
  rw [if_neg h12] at h
  by_cases h13 : s.flow = "airtime_recipient_entry"
  · rw [if_pos h13] at h
    exact Route.noConfusion h
  rw [if_neg h13] at h
  by_cases h14 : s.flow = "waiting_for_paycode"
  · rw [if_pos h14] at h
    split at h <;> exact Route.noConfusion h
  rw [if_neg h14] at h
  by_cases h15 : s.flow = "main_menu"
  · rw [if_pos h15] at h
    exact Route.noConfusion h
  rw [if_neg h15] at h
  exact Route.noConfusion h

theorem routeMessage_ne_lockoutNotice (mt cm : List Char) (sess : Option ChatSession)
    (r : Nat) : routeMessage mt cm sess ≠ Route.lockoutNotice r := by
  intro h
  unfold routeMessage at h
  split at h
  · simp_all
  · split at h
    · split at h <;> simp_all
    · split at h
      · exact routeWithSession_ne_lockoutNotice _ _ _ h
      · exact routeNoSession_ne_lockoutNotice _ _ h

/-- C1: for a user with an active lockout (`lockedUntil` in the future) and an
inbound message that is not a reset-keyword ("hi") message, `processMessage`
replies with the lockout notice (STEP 2) and does not invoke the code-handling
path, even when the message contains a well-formed code. -/
theorem processMessage_lockout_shortcircuit
    (msg : List Char) (sess : Option ChatSession) (st : UserState) (now : Nat)
    (hhi : containsHiLower (jsTrim msg) = false)
    (hlock : now < st.lockoutUntil) :
    processMessage msg sess (some st) now =
      (.lockoutNotice (ceilMinutes (st.lockoutUntil - now)), some st) ∧
    (processMessage msg sess (some st) now).1 ≠ Route.payCodeHandling := by
  have h1 : processMessage msg sess (some st) now =
      (.lockoutNotice (ceilMinutes (st.lockoutUntil - now)), some st) := by
    unfold processMessage
    dsimp only
    rw [if_neg (by simp [hhi]), if_pos hlock]
  exact ⟨h1, by rw [h1]; simp⟩

/-- C1 witness: a locked-out user sending a well-formed code gets the lockout
notice. -/
theorem processMessage_lockout_shortcircuit_witness :
    processMessage "CCH123456".data none (some ⟨0, 0, 600000, none⟩) 0 =
      (.lockoutNotice (ceilMinutes (600000 - 0)), some ⟨0, 0, 600000, none⟩) ∧
    (processMessage "CCH123456".data none (some ⟨0, 0, 600000, none⟩) 0).1 ≠
      Route.payCodeHandling :=
  processMessage_lockout_shortcircuit "CCH123456".data none ⟨0, 0, 600000, none⟩ 0
    (by decide) (by decide)

/-- C2: for a user with an active session in a non-bill flow and no active
lockout, a non-reset message matching the code-recognition patterns (contains
`cch`, `paycode` or `cchub`, case-insensitively) is routed to the code-handling
function (STEP 3), not to the active flow's handler. -/
theorem processMessage_code_overrides_flow
    (msg : List Char) (s : ChatSession) (ua : Option UserState) (now : Nat)
    (hhi : containsHiLower (jsTrim msg) = false)
    (hlock : uaLocked ua now = false)
    (hflow : s.service ≠ "bill_payment")
    (hcode : hasPossiblePayCode (jsTrim msg) = true) :
    (processMessage msg (some s) ua now).1 = Route.payCodeHandling := by
  unfold processMessage
  dsimp only
  rw [if_neg (by simp [hhi])]
  cases ua with
  | none => simp [routeMessage, hcode]
  | some st =>
    have hl : ¬(st.lockoutUntil > now) := by simpa [uaLocked] using hlock
    dsimp only
    rw [if_neg hl]
    simp [routeMessage, hcode]

/-- C2 witness: a code sent mid-way through the ZESA amount step is routed to
code handling. -/
theorem processMessage_code_overrides_flow_witness :
    (processMessage "CCH123456".data (some ⟨"zesa_amount_entry", "zesa", false⟩)
      (some clearUserState) 5).1 = Route.payCodeHandling :=
  processMessage_code_overrides_flow "CCH123456".data ⟨"zesa_amount_entry", "zesa", false⟩
    (some clearUserState) 5 (by decide) (by decide) (by decide) (by decide)

/-- C4 counterexample: processing "hi" during an active lockout does NOT leave
`lockedUntil` unchanged — it zeroes it — and a subsequent non-reset message
before the original expiry is answered with the welcome menu, not the lockout
notice. -/
theorem reset_keyword_lockout_counterexample :
    (processMessage "hi".data none (some ⟨2, 0, 1000000, none⟩) 0).2 ≠
      some (⟨2, 0, 1000000, none⟩ : UserState) ∧
    (processMessage "hi".data none (some ⟨2, 0, 1000000, none⟩) 0).2 =
      some ⟨0, 0, 0, none⟩ ∧
    (processMessage "999".data none (some ⟨0, 0, 0, none⟩) 1).1 = Route.welcome := by
  decide

/-- C4 amended: a reset-keyword message always sends the main menu and clears
the user's rate-limit flags (`attempts := 0`, `lockoutUntil := 0`); any
subsequent message therefore can no longer produce the lockout notice. -/
theorem reset_keyword_clears_lockout
    (msg msg2 : List Char) (sess sess2 : Option ChatSession) (st : UserState)
    (now now2 r : Nat)
    (hhi : containsHiLower (jsTrim msg) = true) :
    processMessage msg sess (some st) now =
      (.welcome, some { st with attempts := 0, lockoutUntil := 0 }) ∧
    (processMessage msg2 sess2 (some { st with attempts := 0, lockoutUntil := 0 }) now2).1 ≠
      Route.lockoutNotice r := by
  constructor
  · unfold processMessage
    dsimp only
    rw [if_pos hhi]
    rfl
  · unfold processMessage
    dsimp only
    by_cases hh2 : containsHiLower (jsTrim msg2) = true
    · rw [if_pos hh2]
      simp
    · rw [if_neg hh2]
      rw [if_neg (show ¬(({ st with attempts := 0, lockoutUntil := 0 } : UserState).lockoutUntil
          > now2) by simp)]
      exact routeMessage_ne_lockoutNotice _ _ _ _

/-- C4 witness: "hi" at time 0 with a lockout until 1000000 resets the record;
no later message at time 1 is a lockout notice. -/
theorem reset_keyword_clears_lockout_witness :
    processMessage "hi".data none (some ⟨2, 0, 1000000, none⟩) 0 =
      (.welcome, some { (⟨2, 0, 1000000, none⟩ : UserState) with
        attempts := 0, lockoutUntil := 0 }) ∧
    (processMessage "999".data none (some { (⟨2, 0, 1000000, none⟩ : UserState) with
        attempts := 0, lockoutUntil := 0 }) 1).1 ≠ Route.lockoutNotice 16 :=
  reset_keyword_clears_lockout "hi".data "999".data none none ⟨2, 0, 1000000, none⟩ 0 1 16
    (by decide)

/-- C7: a bare six-digit submission (no prefix) by a user who is not locked
out fails with a `FORMAT` rejection whose corrective message ends with the
canonical form `CCH` followed by those digits, incrementing `attempts`. -/
theorem bare_digits_corrective_message
    (ds : List Char) (st : UserState) (now : Nat)
    (hlen : ds.length = 6) (hd : ds.all isDigitCh = true)
    (hlock : st.lockoutUntil ≤ now) :
    validatePayCode ds st now =
      (.err (.format (String.mk
        ("FORMAT: PayCodes now start with \"CCH\". Please add \"CCH\" prefix: CCH".data ++ ds))),
       bumpAttempt (windowReset st now) now) :=
  validate_bare_digits hlen hd hlock

/-- C7 witness at the digits 785012. -/
theorem bare_digits_corrective_message_witness :
    validatePayCode "785012".data ⟨1, 0, 0, none⟩ 5 =
      (.err (.format (String.mk
        ("FORMAT: PayCodes now start with \"CCH\". Please add \"CCH\" prefix: CCH".data ++
          "785012".data))),
       bumpAttempt (windowReset ⟨1, 0, 0, none⟩ 5) 5) :=
  bare_digits_corrective_message "785012".data ⟨1, 0, 0, none⟩ 5 (by decide) (by decide)
    (by decide)

/-- C8: for a user in a clear rate-limit state, a well-formed code validates
on first submission and the identical immediate resubmission fails with the
`SECURITY` replay rejection. -/
theorem replay_second_submission_rejected
    (ds : List Char) (now : Nat)
    (hlen : ds.length = 6) (hd : ds.all isDigitCh = true) :
    (validatePayCode ('C' :: 'C' :: 'H' :: ds) clearUserState now).1 =
      .ok ('C' :: 'C' :: 'H' :: ds) ∧
    (validatePayCode ('C' :: 'C' :: 'H' :: ds)
        (validatePayCode ('C' :: 'C' :: 'H' :: ds) clearUserState now).2 now).1 =
      .err (.security "SECURITY: This PayCode was already used recently. Each PayCode can only be used once.") := by
  have h1 := @validate_of_clean ('C' :: 'C' :: 'H' :: ds) ds clearUserState now
    (clean_canonical hd) hlen hd (by simp [clearUserState]) (by simp [hlen])
    (by simp [clearUserState])
  refine ⟨by rw [h1], ?_⟩
  rw [h1]
  have h2 := @validate_replay ds
    ⟨0, now, clearUserState.lockoutUntil, some ('C' :: 'C' :: 'H' :: ds)⟩ now
    hlen hd (by simp [clearUserState]) rfl
  rw [h2]

/-- C8 witness at the code CCH785012. -/
theorem replay_second_submission_rejected_witness :
    (validatePayCode ('C' :: 'C' :: 'H' :: "785012".data) clearUserState 3).1 =
      .ok ('C' :: 'C' :: 'H' :: "785012".data) ∧
    (validatePayCode ('C' :: 'C' :: 'H' :: "785012".data)
        (validatePayCode ('C' :: 'C' :: 'H' :: "785012".data) clearUserState 3).2 3).1 =
      .err (.security "SECURITY: This PayCode was already used recently. Each PayCode can only be used once.") :=
  replay_second_submission_rejected "785012".data 3 (by decide) (by decide)

/-! ## Extraction of the canonical code from a message consisting of it -/

theorem takeWhile_sep_digits {ds : List Char} (hne : ds ≠ [])
    (hd : ds.all isDigitCh = true) : ds.takeWhile isExtractSep = [] := by
  cases ds with
  | nil => exact absurd rfl hne
  | cons d t =>
    have hdd : isDigitCh d = true := by
      simp [List.all_eq_true] at hd
      exact hd.1
    simp [List.takeWhile_cons, isExtractSep_digit hdd]

theorem dropWhile_sep_digits {ds : List Char} (hne : ds ≠ [])
    (hd : ds.all isDigitCh = true) : ds.dropWhile isExtractSep = ds := by
  cases ds with
  | nil => exact absurd rfl hne
  | cons d t =>
    have hdd : isDigitCh d = true := by
      simp [List.all_eq_true] at hd
      exact hd.1
    simp [List.dropWhile_cons, isExtractSep_digit hdd]

theorem tryStandardAt_canonical {ds : List Char} (hlen : ds.length = 6)
    (hd : ds.all isDigitCh = true) :
    tryStandardAt ('C' :: 'C' :: 'H' :: ds) = some ('C' :: 'C' :: 'H' :: ds) := by
  have hne : ds ≠ [] := by
    intro h
    rw [h] at hlen
    simp at hlen
  unfold tryStandardAt
  dsimp only
  rw [if_pos (show downcaseCh 'C' = 'c' ∧ downcaseCh 'C' = 'c' ∧ downcaseCh 'H' = 'h' by decide)]
  rw [takeWhile_sep_digits hne hd, dropWhile_sep_digits hne hd]
  rw [show ds.take 6 = ds by rw [← hlen]; exact List.take_length ds]
  rw [if_pos ⟨hlen, hd⟩]
  simp

theorem extract_canonical {ds : List Char} (hlen : ds.length = 6)
    (hd : ds.all isDigitCh = true) :
    extractPayCodeFromMessage ('C' :: 'C' :: 'H' :: ds) =
      some ('C' :: 'C' :: 'H' :: ds) := by
  have hmem : ∀ c ∈ ds, isDigitCh c = true := by simpa [List.all_eq_true] using hd
  have hsp : ∀ c ∈ ('C' :: 'C' :: 'H' :: ds), isJsSpace c = false := by
    intro c hc
    rcases List.mem_cons.mp hc with rfl | hc
    · decide
    rcases List.mem_cons.mp hc with rfl | hc
    · decide
    rcases List.mem_cons.mp hc with rfl | hc
    · decide
    · exact isJsSpace_digit (hmem c hc)
  have h1 : firstSome tryStandardAt ('C' :: 'C' :: 'H' :: ds) =
      some ('C' :: 'C' :: 'H' :: ds) := by
    unfold firstSome
    rw [tryStandardAt_canonical hlen hd]
  unfold extractPayCodeFromMessage
  dsimp only
  rw [jsTrim_eq_self hsp, h1]

/-- C3 counterexample: starting from a clear rate-limit state, a single
rejected non-suspicious submission (bare six digits, a `FormatInvalid`)
increments `attempts` by 2 — once inside `validatePayCode` and once more in
the handler's catch block — not by 1 as claimed, and the second consecutive
rejected submission already converts into the lockout notice, so three
consecutive FormatInvalid/SecurityRejected responses can never be observed. -/
theorem rate_limit_increment_counterexample :
    (handlePayCodeMessage "paycode 785012".data clearUserState 0).2.attempts = 2 ∧
    (handlePayCodeMessage "paycode 785012".data clearUserState 0).1 =
      HResult.rejected (.format (String.mk
        ("FORMAT: PayCodes now start with \"CCH\". Please add \"CCH\" prefix: CCH".data ++
          "785012".data))) ∧
    (handlePayCodeMessage "paycode 785013".data
      (handlePayCodeMessage "paycode 785012".data clearUserState 0).2 1).1 =
      HResult.lockedOut := by
  decide

/-- C3 amended: from a clear rate-limit state, a rejected FormatInvalid
submission through `handlePayCodeMessage` increments `attempts` by 2 (1 in
`validatePayCode`, 1 in the catch block); the second consecutive such
submission inside the rate window reaches the threshold (`attempts` ≥ 3) and
sets `lockedUntil = now + lockoutDuration`; thereafter every non-reset message
receives the `RateLimited` lockout notice until simulated time passes
`lockedUntil`. -/
theorem rate_limit_lockout_after_two
    (m1 m2 msg3 d1 d2 : List Char) (st : UserState)
    (now t2 t3 : Nat) (sess : Option ChatSession)
    (hx1 : extractPayCodeFromMessage m1 = some d1)
    (hl1 : d1.length = 6) (hd1 : d1.all isDigitCh = true)
    (hx2 : extractPayCodeFromMessage m2 = some d2)
    (hl2 : d2.length = 6) (hd2 : d2.all isDigitCh = true)
    (ha : st.attempts = 0) (hlock : st.lockoutUntil ≤ now)
    (ht2a : now ≤ t2) (ht2b : t2 ≤ now + RATE_LIMIT_windowMs)
    (hhi : containsHiLower (jsTrim msg3) = false)
    (ht3 : t3 < t2 + RATE_LIMIT_lockoutDurationMs) :
    handlePayCodeMessage m1 st now =
      (.rejected (.format (String.mk
        ("FORMAT: PayCodes now start with \"CCH\". Please add \"CCH\" prefix: CCH".data ++ d1))),
       ⟨2, now, st.lockoutUntil, st.lastValidPayCode⟩) ∧
    handlePayCodeMessage m2 ⟨2, now, st.lockoutUntil, st.lastValidPayCode⟩ t2 =
      (.lockedOut, ⟨4, t2, t2 + RATE_LIMIT_lockoutDurationMs, st.lastValidPayCode⟩) ∧
    (processMessage msg3 sess
        (some ⟨4, t2, t2 + RATE_LIMIT_lockoutDurationMs, st.lastValidPayCode⟩) t3).1 =
      Route.lockoutNotice (ceilMinutes (t2 + RATE_LIMIT_lockoutDurationMs - t3)) := by
  obtain ⟨a, la, lu, lv⟩ := st
  dsimp only at ha hlock ⊢
  subst ha
  have hwr1 : windowReset ⟨0, la, lu, lv⟩ now = ⟨0, la, lu, lv⟩ := by
    unfold windowReset
    split <;> rfl
  have hwr2 : windowReset ⟨2, now, lu, lv⟩ t2 = ⟨2, now, lu, lv⟩ := by
    have ht2b' : t2 ≤ now + 300000 := by simpa [RATE_LIMIT_windowMs] using ht2b
    unfold windowReset RATE_LIMIT_windowMs
    rw [if_neg]
    dsimp only
    omega
  refine ⟨?_, ?_, ?_⟩
  · unfold handlePayCodeMessage
    rw [hx1]
    dsimp only
    rw [validate_bare_digits hl1 hd1 hlock, hwr1]
    dsimp only [bumpAttempt]
    rw [if_neg (by decide)]
  · unfold handlePayCodeMessage
    rw [hx2]
    dsimp only
    rw [validate_bare_digits hl2 hd2 (by dsimp only; omega), hwr2]
    dsimp only [bumpAttempt]
    rw [if_pos (by decide)]
  · unfold processMessage
    dsimp only
    rw [if_neg (by simp [hhi])]
    rw [if_pos (show (⟨4, t2, t2 + RATE_LIMIT_lockoutDurationMs, lv⟩ : UserState).lockoutUntil
        > t3 by dsimp only; omega)]

/-- C3 amended witness: two bare-digit submissions from a clear state, then a
code message during the lockout. -/
theorem rate_limit_lockout_after_two_witness :
    handlePayCodeMessage "paycode 785012".data clearUserState 0 =
      (.rejected (.format (String.mk
        ("FORMAT: PayCodes now start with \"CCH\". Please add \"CCH\" prefix: CCH".data ++
          "785012".data))),
       ⟨2, 0, clearUserState.lockoutUntil, clearUserState.lastValidPayCode⟩) ∧
    handlePayCodeMessage "paycode 785013".data
        ⟨2, 0, clearUserState.lockoutUntil, clearUserState.lastValidPayCode⟩ 1 =
      (.lockedOut, ⟨4, 1, 1 + RATE_LIMIT_lockoutDurationMs, clearUserState.lastValidPayCode⟩) ∧
    (processMessage "CCH123456".data none
        (some ⟨4, 1, 1 + RATE_LIMIT_lockoutDurationMs, clearUserState.lastValidPayCode⟩) 2).1 =
      Route.lockoutNotice (ceilMinutes (1 + RATE_LIMIT_lockoutDurationMs - 2)) :=
  rate_limit_lockout_after_two "paycode 785012".data "paycode 785013".data "CCH123456".data
    "785012".data "785013".data clearUserState 0 1 2 none
    (by decide) (by decide) (by decide) (by decide) (by decide) (by decide)
    (by decide) (by decide) (by decide) (by decide) (by decide) (by decide)

/-- C9 counterexample: a single submission of a suspicious-pattern code
(six identical digits) from a clear rate-limit state is accepted — the
transient `attempts += 2` of RULE 5 is erased by the success path, which
resets `attempts` to 0 — so it does not leave the counter incremented by 2,
and a user submitting only (fresh) suspicious codes never reaches lockout. -/
theorem suspicious_single_submission_counterexample :
    (handlePayCodeMessage "CCH111111".data clearUserState 0).1 =
      HResult.validated "CCH111111".data ∧
    (handlePayCodeMessage "CCH111111".data clearUserState 0).2.attempts = 0 := by
  decide

/-- C9 amended: the suspicious-pattern check adds 2 (rather than 1) to
`attempts` without rejecting by itself, but the doubled increment only
persists when a later rule rejects the submission: replaying a
suspicious-pattern code is rejected with `attempts` already at 2 in
`validatePayCode` plus 1 in the handler = 3, i.e. an immediate lockout after a
single rejected submission, whereas replaying an ordinary code leaves
`attempts` at 1 with no lockout — so a suspicious-pattern user reaches the
lockout threshold in fewer rejected submissions. -/
theorem suspicious_double_increment_on_rejection
    (d : Char) (ds : List Char) (stS stO : UserState) (now : Nat)
    (hdig : isDigitCh d = true)
    (haS : stS.attempts = 0) (hlockS : stS.lockoutUntil ≤ now)
    (hreS : stS.lastValidPayCode = some ('C' :: 'C' :: 'H' :: List.replicate 6 d))
    (hlen : ds.length = 6) (hd : ds.all isDigitCh = true)
    (hns : isSuspicious ('C' :: 'C' :: 'H' :: ds) = false)
    (haO : stO.attempts = 0) (hlockO : stO.lockoutUntil ≤ now)
    (hreO : stO.lastValidPayCode = some ('C' :: 'C' :: 'H' :: ds)) :
    (handlePayCodeMessage ('C' :: 'C' :: 'H' :: List.replicate 6 d) stS now).1 =
      HResult.lockedOut ∧
    (handlePayCodeMessage ('C' :: 'C' :: 'H' :: List.replicate 6 d) stS now).2.attempts = 3 ∧
    (handlePayCodeMessage ('C' :: 'C' :: 'H' :: ds) stO now).1 =
      HResult.rejected (.security "SECURITY: This PayCode was already used recently. Each PayCode can only be used once.") ∧
    (handlePayCodeMessage ('C' :: 'C' :: 'H' :: ds) stO now).2.attempts = 1 := by
  have hlenR : (List.replicate 6 d).length = 6 := by simp
  have hdR : (List.replicate 6 d).all isDigitCh = true := by
    simp [List.all_eq_true]
    exact hdig
  obtain ⟨aS, laS, luS, lvS⟩ := stS
  obtain ⟨aO, laO, luO, lvO⟩ := stO
  dsimp only at haS hlockS hreS haO hlockO hreO
  subst haS
  subst haO
  have hS : handlePayCodeMessage ('C' :: 'C' :: 'H' :: List.replicate 6 d)
      ⟨0, laS, luS, lvS⟩ now = (.lockedOut,
        ⟨3, now, now + RATE_LIMIT_lockoutDurationMs, lvS⟩) := by
    unfold handlePayCodeMessage
    rw [extract_canonical hlenR hdR]
    dsimp only
    rw [validate_replay hlenR hdR hlockS hreS]
    rw [if_pos (isSuspicious_replicate hdig)]
    have hwr : windowReset ⟨0, laS, luS, lvS⟩ now = ⟨0, laS, luS, lvS⟩ := by
      unfold windowReset
      split <;> rfl
    rw [hwr]
    dsimp only
    rw [if_pos (by decide)]
  have hO : handlePayCodeMessage ('C' :: 'C' :: 'H' :: ds) ⟨0, laO, luO, lvO⟩ now =
      (.rejected (.security "SECURITY: This PayCode was already used recently. Each PayCode can only be used once."),
       ⟨1, now, luO, lvO⟩) := by
    unfold handlePayCodeMessage
    rw [extract_canonical hlen hd]
    dsimp only
    rw [validate_replay hlen hd hlockO hreO]
    rw [if_neg (by simp [hns])]
    have hwr : windowReset ⟨0, laO, luO, lvO⟩ now = ⟨0, laO, luO, lvO⟩ := by
      unfold windowReset
      split <;> rfl
    rw [hwr]
    dsimp only
    rw [if_neg (by decide)]
  rw [hS, hO]
  exact ⟨rfl, rfl, rfl, rfl⟩

/-- C9 amended witness: replaying CCH111111 locks out immediately; replaying
CCH785012 leaves a single attempt. -/
theorem suspicious_double_increment_on_rejection_witness :
    (handlePayCodeMessage ('C' :: 'C' :: 'H' :: List.replicate 6 '1')
        ⟨0, 0, 0, some ('C' :: 'C' :: 'H' :: List.replicate 6 '1')⟩ 9).1 =
      HResult.lockedOut ∧
    (handlePayCodeMessage ('C' :: 'C' :: 'H' :: List.replicate 6 '1')
        ⟨0, 0, 0, some ('C' :: 'C' :: 'H' :: List.replicate 6 '1')⟩ 9).2.attempts = 3 ∧
    (handlePayCodeMessage ('C' :: 'C' :: 'H' :: "785012".data)
        ⟨0, 0, 0, some ('C' :: 'C' :: 'H' :: "785012".data)⟩ 9).1 =
      HResult.rejected (.security "SECURITY: This PayCode was already used recently. Each PayCode can only be used once.") ∧
    (handlePayCodeMessage ('C' :: 'C' :: 'H' :: "785012".data)
        ⟨0, 0, 0, some ('C' :: 'C' :: 'H' :: "785012".data)⟩ 9).2.attempts = 1 :=
  suspicious_double_increment_on_rejection '1' "785012".data
    ⟨0, 0, 0, some ('C' :: 'C' :: 'H' :: List.replicate 6 '1')⟩
    ⟨0, 0, 0, some ('C' :: 'C' :: 'H' :: "785012".data)⟩ 9
    (by decide) (by decide) (by decide) (by decide) (by decide) (by decide)
    (by decide) (by decide) (by decide) (by decide)

theorem filter_congr_mem {α : Type} {p q : α → Bool} :
    ∀ {l : List α}, (∀ a ∈ l, p a = q a) → l.filter p = l.filter q
  | [], _ => rfl
  | a :: t, h => by
    rw [List.filter_cons, List.filter_cons, h a (by simp),
      filter_congr_mem fun b hb => h b (by simp [hb])]

/-- C6 counterexample: the claimed domain ("contains CCH followed, modulo
embedded whitespace/dashes/dots and case, by exactly 6 digits") includes
inputs the validator rejects: a 104-character separated spelling of a code is
rejected `SECURITY` by the RULE 7 length cap, and an input merely containing
the pattern with extra characters around it ("ACCH123456") is rejected
`FORMAT`. -/
theorem clean_validate_counterexample :
    longSeparatedRaw.length = 104 ∧
    SeparatedCCHCode longSeparatedRaw "785012".data ∧
    (validatePayCode longSeparatedRaw clearUserState 0).1 =
      .err (.security "SECURITY: Message too long. Please send only the PayCode.") ∧
    (validatePayCode "ACCH123456".data clearUserState 0).1 =
      .err (.format "FORMAT: PayCode must start with \"CCH\".") :=
  ⟨by decide, ⟨by decide, 'C', 'C', 'H', Or.inr rfl, Or.inr rfl, Or.inr rfl, by decide⟩,
   by decide, by decide⟩

/-- C6 amended: for every raw input that consists of the canonical prefix CCH
followed by exactly 6 digits, modulo embedded whitespace/dashes/dots and
arbitrary letter case (`SeparatedCCHCode`), and that is at most 100 characters
long, validation in a clear rate-limit state (no lockout, no recorded
`lastValidPayCode`) succeeds with the canonical 9-character uppercase code,
leaves `attempts` at 0 and records the code as `lastValidPayCode`. -/
theorem clean_validate_roundtrip
    (raw ds : List Char) (st : UserState) (now : Nat)
    (hsep : SeparatedCCHCode raw ds)
    (hlen : ds.length = 6)
    (hraw : raw.length ≤ 100)
    (hlv : st.lastValidPayCode = none)
    (hlock : st.lockoutUntil ≤ now) :
    validatePayCode raw st now =
      (.ok ('C' :: 'C' :: 'H' :: ds),
       { attempts := 0, lastAttempt := now, lockoutUntil := st.lockoutUntil,
         lastValidPayCode := some ('C' :: 'C' :: 'H' :: ds) }) := by
  obtain ⟨hd, u1, u2, u3, hu1, hu2, hu3, hfilter⟩ := hsep
  have hmemd : ∀ c ∈ ds, isDigitCh c = true := by simpa [List.all_eq_true] using hd
  have hclean : cleanPayCode raw = some ('C' :: 'C' :: 'H' :: ds) := by
    have hrawne : raw ≠ [] := by
      intro h
      rw [h] at hfilter
      simp at hfilter
    have hpt : ∀ c ∈ raw, isWordChar c = (!(isExtractSep c)) := by
      intro c hc
      by_cases hsepc : isExtractSep c = true
      · rw [sep_not_word hsepc, hsepc]
        rfl
      · have hcf : isExtractSep c = false := by
          revert hsepc
          cases isExtractSep c <;> simp
        have hcmem : c ∈ u1 :: u2 :: u3 :: ds := by
          rw [← hfilter]
          exact List.mem_filter.mpr ⟨hc, by rw [hcf]; rfl⟩
        have hwc : isWordChar c = true := by
          rcases List.mem_cons.mp hcmem with rfl | hcm
          · rcases hu1 with rfl | rfl <;> decide
          rcases List.mem_cons.mp hcm with rfl | hcm
          · rcases hu2 with rfl | rfl <;> decide
          rcases List.mem_cons.mp hcm with rfl | hcm
          · rcases hu3 with rfl | rfl <;> decide
          · exact isWordChar_of_digit (hmemd c hcm)
        rw [hwc, hcf]
        rfl
    have hfw : raw.filter isWordChar = u1 :: u2 :: u3 :: ds := by
      rw [filter_congr_mem hpt, hfilter]
    have hup : (u1 :: u2 :: u3 :: ds).map upcaseCh = 'C' :: 'C' :: 'H' :: ds := by
      rw [List.map_cons, List.map_cons, List.map_cons,
        map_eq_self_of fun c hc => upcaseCh_digit (hmemd c hc)]
      have e1 : upcaseCh u1 = 'C' := by rcases hu1 with rfl | rfl <;> decide
      have e2 : upcaseCh u2 = 'C' := by rcases hu2 with rfl | rfl <;> decide
      have e3 : upcaseCh u3 = 'H' := by rcases hu3 with rfl | rfl <;> decide
      rw [e1, e2, e3]
    unfold cleanPayCode
    rw [if_neg hrawne, filter_isWordChar_jsTrim, hfw, hup]
  exact validate_of_clean hclean hlen hd (by rw [hlv]; simp) hraw hlock

/-- C6 amended witness: "cch 12-34.56" cleans and validates to CCH123456. -/
theorem clean_validate_roundtrip_witness :
    validatePayCode "cch 12-34.56".data clearUserState 7 =
      (.ok ('C' :: 'C' :: 'H' :: "123456".data),
       { attempts := 0, lastAttempt := 7, lockoutUntil := clearUserState.lockoutUntil,
         lastValidPayCode := some ('C' :: 'C' :: 'H' :: "123456".data) }) :=
  clean_validate_roundtrip "cch 12-34.56".data "123456".data clearUserState 7
    ⟨by decide, 'c', 'c', 'h', Or.inl rfl, Or.inl rfl, Or.inl rfl, by decide⟩
    (by decide) (by decide) (by decide) (by decide)

/-! ## The session-store invariant -/

theorem countB_cons {α : Type} (p : α → Bool) (a : α) (l : List α) :
    countB p (a :: l) = (if p a then 1 else 0) + countB p l := by
  unfold countB
  rw [List.filter_cons]
  by_cases h : p a = true
  · simp [h, Nat.add_comm]
  · simp [h]

theorem countB_filter_le {α : Type} (p q : α → Bool) :
    ∀ l : List α, countB p (l.filter q) ≤ countB p l := by
  intro l
  induction l with
  | nil => exact Nat.le_refl 0
  | cons a t ih =>
    rw [List.filter_cons, countB_cons]
    by_cases hq : q a = true
    · rw [if_pos hq, countB_cons]
      by_cases hp : p a = true
      · rw [if_pos hp]
        omega
      · rw [if_neg hp]
        omega
    · rw [if_neg hq]
      exact le_trans ih (Nat.le_add_left _ _)

theorem countB_filter_zero {α : Type} {p q : α → Bool}
    (hpq : ∀ a, p a = true → q a = false) :
    ∀ l : List α, countB p (l.filter q) = 0 := by
  intro l
  induction l with
  | nil => rfl
  | cons a t ih =>
    rw [List.filter_cons]
    by_cases hq : q a = true
    · rw [if_pos hq, countB_cons]
      have hp : ¬(p a = true) := fun hp => by rw [hpq a hp] at hq; exact Bool.noConfusion hq
      rw [if_neg hp]
      omega
    · rw [if_neg hq]
      exact ih

theorem countB_mono_pred {α : Type} {p q : α → Bool}
    (h : ∀ a, p a = true → q a = true) :
    ∀ l : List α, countB p l ≤ countB q l := by
  intro l
  induction l with
  | nil => exact Nat.le_refl 0
  | cons a t ih =>
    rw [countB_cons, countB_cons]
    by_cases hp : p a = true
    · rw [if_pos hp, if_pos (h a hp)]
      omega
    · rw [if_neg hp]
      by_cases hq : q a = true
      · rw [if_pos hq]; omega
      · rw [if_neg hq]; omega

theorem countB_split {α : Type} (p q : α → Bool) :
    ∀ l : List α, countB p l =
      countB (fun a => p a && q a) l + countB (fun a => p a && !q a) l := by
  intro l
  induction l with
  | nil => rfl
  | cons a t ih =>
    rw [countB_cons, countB_cons, countB_cons, ih]
    by_cases hp : p a = true
    · by_cases hq : q a = true
      · simp [hp, hq]
        omega
      · simp [hp, hq]
        omega
    · simp [hp]

theorem countB_congr {α : Type} {p q : α → Bool} (h : ∀ a, p a = q a) (l : List α) :
    countB p l = countB q l := by
  unfold countB
  rw [filter_congr_mem fun a _ => h a]

/-- The inductive invariant: each user has at most one stored session per
service class. -/
def storeInv (store : SessionStore) : Prop :=
  ∀ num b, classCount store num b ≤ 1

theorem storeInv_nil : storeInv [] := fun _ _ => Nat.zero_le 1

theorem storeInv_update {store : SessionStore} (num service : String) (now : Nat)
    (h : storeInv store) : storeInv (updateSession store num service now) := by
  intro num' b
  unfold updateSession classCount
  rw [countB_cons]
  by_cases hp : classPred num' b ((num, now),
      { whatsappNumber := num, service := service, createdAt := now, expiresAt := now + SESSION_TTL_MS }) = true
  · rw [if_pos hp]
    unfold classPred at hp
    rw [Bool.and_eq_true] at hp
    have hn : num = num' := by
      have := hp.1
      simpa using this
    have hz : countB (classPred num' b)
        (store.filter fun kv =>
          !(decide (kv.2.whatsappNumber = num)) ||
            (decide (service = "bill_payment") && !(decide (kv.2.service = "bill_payment")))) = 0 := by
      apply countB_filter_zero
      intro kv hkv
      unfold classPred at hkv
      rw [Bool.and_eq_true] at hkv
      have hkn : kv.2.whatsappNumber = num' := by
        have := hkv.1
        simpa using this
      rw [Bool.or_eq_false_iff]
      constructor
      · simp [hkn, hn]
      · by_cases hsb : service = "bill_payment"
        · have hb : b = true := by
            have h2 := hp.2
            simp [hsb] at h2
            exact h2
          have hkb : kv.2.service = "bill_payment" := by
            have h3 := hkv.2
            rw [hb] at h3
            simpa using h3
          simp [hkb]
        · simp [hsb]
    have hz2 : countB (classPred num' b)
        ((store.filter fun kv =>
          !(decide (kv.2.whatsappNumber = num)) ||
            (decide (service = "bill_payment") && !(decide (kv.2.service = "bill_payment")))).filter
          fun kv => !(decide (kv.1 = (num, now)))) = 0 :=
      Nat.le_zero.mp (hz ▸ countB_filter_le _ _ _)
    rw [hz2]
  · rw [if_neg hp]
    have h1 := countB_filter_le (classPred num' b)
      (fun kv => !(decide (kv.1 = (num, now))))
      (store.filter fun kv =>
        !(decide (kv.2.whatsappNumber = num)) ||
          (decide (service = "bill_payment") && !(decide (kv.2.service = "bill_payment"))))
    have h2 := countB_filter_le (classPred num' b)
      (fun kv =>
        !(decide (kv.2.whatsappNumber = num)) ||
          (decide (service = "bill_payment") && !(decide (kv.2.service = "bill_payment")))) store
    have h3 := h num' b
    unfold classCount at h3
    omega

theorem storeInv_delete {store : SessionStore} (num : String) (h : storeInv store) :
    storeInv (deleteSession store num) := by
  intro num' b
  unfold deleteSession classCount
  have h1 := countB_filter_le (classPred num' b)
    (fun kv => !(decide (kv.2.whatsappNumber = num))) store
  have h2 := h num' b
  unfold classCount at h2
  omega

theorem storeInv_sweep {store : SessionStore} (now : Nat) (h : storeInv store) :
    storeInv (cleanupOldSessions store now) := by
  intro num' b
  unfold cleanupOldSessions classCount
  have h1 := countB_filter_le (classPred num' b)
    (fun kv => !(decide (kv.2.expiresAt < now))) store
  have h2 := h num' b
  unfold classCount at h2
  omega

theorem storeInv_applyOps :
    ∀ (ops : List SessionOp) (store : SessionStore),
      storeInv store → storeInv (ops.foldl applyOp store)
  | [], _, h => h
  | op :: rest, store, h => by
    rw [List.foldl_cons]
    refine storeInv_applyOps rest _ ?_
    cases op with
    | update num service now => exact storeInv_update num service now h
    | remove num => exact storeInv_delete num h
    | sweep now => exact storeInv_sweep now h

/-- C5 counterexample: starting a ZESA flow and then a bill-payment flow for
the same user leaves TWO non-expired sessions for that user in the store,
because a `bill_payment` upsert spares sessions of other services. -/
theorem session_single_invariant_counterexample :
    activeCount (applyOps [.update "u" "zesa" 0, .update "u" "bill_payment" 1]) "u" 2 = 2 := by
  decide

/-- C5 amended: under every sequence of store operations (upserts, removals,
expiry sweeps) from the empty store, each user has at most one stored session
per service class (`bill_payment` vs other) — hence at most one non-expired
`bill_payment` session and at most one non-expired non-bill session, and at
most two non-expired sessions in total. The at-most-one-overall invariant
fails exactly when a `bill_payment` flow starts while a non-bill session is
live. -/
theorem session_store_class_invariant (ops : List SessionOp) (num : String) (b : Bool)
    (t : Nat) :
    classCount (applyOps ops) num b ≤ 1 ∧ activeCount (applyOps ops) num t ≤ 2 := by
  have hinv : storeInv (applyOps ops) := storeInv_applyOps ops [] storeInv_nil
  refine ⟨hinv num b, ?_⟩
  have hmono : activeCount (applyOps ops) num t ≤
      countB (fun kv => decide (kv.2.whatsappNumber = num)) (applyOps ops) := by
    unfold activeCount
    exact countB_mono_pred (fun a ha => (Bool.and_eq_true .. |>.mp ha).1) _
  have hsplit := countB_split (fun kv => decide (kv.2.whatsappNumber = num))
    (fun kv => decide (kv.2.service = "bill_payment")) (applyOps ops)
  have e1 : countB (fun kv => decide (kv.2.whatsappNumber = num) &&
      decide (kv.2.service = "bill_payment")) (applyOps ops) =
      classCount (applyOps ops) num true :=
    countB_congr (fun a => by simp [classPred]) _
  have e2 : countB (fun kv => decide (kv.2.whatsappNumber = num) &&
      !(decide (kv.2.service = "bill_payment"))) (applyOps ops) =
      classCount (applyOps ops) num false :=
    countB_congr (fun a => by simp [classPred]) _
  have hbill := hinv num true
  have hnon := hinv num false
  omega

/-- C10: a rate-limit record that is more than an hour idle with its lockout
in the past is deleted wholesale by `cleanupUserActivity` — including
`lastValidPayCode`, so the previously accepted code validates again against
the fresh record — while a record whose lockout has expired but which is not
hour-idle only has `lockoutUntil` and `attempts` zeroed, `lastValidPayCode`
(and `lastAttempt`) preserved. -/
theorem cleanup_idle_and_expired_lockout
    (u1 u2 : String) (st1 st2 : UserState) (now t2 : Nat) (ds : List Char)
    (h1a : st1.lastAttempt < now - 3600000) (h1b : st1.lockoutUntil < now)
    (h1c : st1.lastValidPayCode = some ('C' :: 'C' :: 'H' :: ds))
    (hlen : ds.length = 6) (hd : ds.all isDigitCh = true)
    (h2a : ¬(st2.lastAttempt < now - 3600000)) (h2b : 0 < st2.lockoutUntil)
    (h2c : st2.lockoutUntil < now) :
    cleanupUserActivity [(u1, st1)] now = [] ∧
    (validatePayCode ('C' :: 'C' :: 'H' :: ds) clearUserState t2).1 =
      .ok ('C' :: 'C' :: 'H' :: ds) ∧
    cleanupUserActivity [(u2, st2)] now =
      [(u2, { st2 with lockoutUntil := 0, attempts := 0 })] := by
  refine ⟨?_, ?_, ?_⟩
  · have hr1 : cleanupRecord st1 now = none := by
      unfold cleanupRecord
      rw [if_pos (show st1.lastAttempt < now - 60 * 60 * 1000 ∧ st1.lockoutUntil < now
        from ⟨by omega, h1b⟩)]
    simp [cleanupUserActivity, hr1]
  · rw [@validate_of_clean ('C' :: 'C' :: 'H' :: ds) ds clearUserState t2
      (clean_canonical hd) hlen hd (by simp [clearUserState]) (by simp [hlen])
      (by simp [clearUserState])]
  · have hr2 : cleanupRecord st2 now =
        some { st2 with lockoutUntil := 0, attempts := 0 } := by
      unfold cleanupRecord
      rw [if_neg (show ¬(st2.lastAttempt < now - 60 * 60 * 1000 ∧ st2.lockoutUntil < now)
        from fun hcon => h2a (by omega)), if_pos ⟨h2b, h2c⟩]
    simp [cleanupUserActivity, hr2]

/-- C10 witness: an hour-idle record with expired lockout versus a recently
active record with expired lockout. -/
theorem cleanup_idle_and_expired_lockout_witness :
    cleanupUserActivity [("u1", ⟨1, 0, 5, some ('C' :: 'C' :: 'H' :: "785012".data)⟩)]
      4000000 = [] ∧
    (validatePayCode ('C' :: 'C' :: 'H' :: "785012".data) clearUserState 0).1 =
      .ok ('C' :: 'C' :: 'H' :: "785012".data) ∧
    cleanupUserActivity [("u2", ⟨2, 3900000, 5, some ('C' :: 'C' :: 'H' :: "111111".data)⟩)]
      4000000 =
      [("u2", { (⟨2, 3900000, 5, some ('C' :: 'C' :: 'H' :: "111111".data)⟩ : UserState) with
        lockoutUntil := 0, attempts := 0 })] :=
  cleanup_idle_and_expired_lockout "u1" "u2"
    ⟨1, 0, 5, some ('C' :: 'C' :: 'H' :: "785012".data)⟩
    ⟨2, 3900000, 5, some ('C' :: 'C' :: 'H' :: "111111".data)⟩ 4000000 0 "785012".data
    (by decide) (by decide) (by decide) (by decide) (by decide) (by decide) (by decide)
    (by decide)
